import Mathlib

/-!
Verification of the WebSketch Sketch Modification Engine.

Shallow embedding of the sketch data model, the operation executor
(src/src/lib/agent/operationExecutor.ts), and the spatial analyzer
(src/src/lib/agent/sketchParser.ts).  JavaScript numbers are modelled as
rationals; the time/random based id generator of executeAdd is modelled as
an oracle gen : Nat -> String consulted once per successful add.
-/

namespace WebSketch

/-- PlacedComponent from src/src/types: id, type (a string at runtime,
the declared union has 11 variants), pixel coordinates and size, and an
open props map (modelled as an association list with opaque string values). -/
structure PlacedComponent where
  id : String
  type : String
  x : ℚ
  y : ℚ
  width : ℚ
  height : ℚ
  props : List (String × String)
deriving Repr, DecidableEq

/-- ComponentOperation from src/src/lib/agent/schemas.ts: a tag plus
all-optional fields (undefined modelled as none). -/
structure ComponentOperation where
  type : String
  componentId : Option String := none
  componentType : Option String := none
  x : Option ℚ := none
  y : Option ℚ := none
  width : Option ℚ := none
  height : Option ℚ := none
  props : Option (List (String × String)) := none
  targetIds : Option (List String) := none
  alignment : Option String := none
  spacing : Option ℚ := none
deriving Repr, DecidableEq

/-- executeMove (operationExecutor.ts:39).  The JS guard
"!operation.componentId or x/y === undefined" treats both a missing and an
empty-string componentId as falsy. -/
def executeMove (sketch : List PlacedComponent) (operation : ComponentOperation) :
    List PlacedComponent :=
  match operation.componentId, operation.x, operation.y with
  | some cid, some mx, some my =>
    if cid = "" then sketch
    else sketch.map (fun comp =>
      if comp.id = cid then { comp with x := mx, y := my } else comp)
  | _, _, _ => sketch

/-- executeResize (operationExecutor.ts:51): clamps width to at least 20 and
height to at least 2 for HorizontalLine components, else at least 20. -/
def executeResize (sketch : List PlacedComponent) (operation : ComponentOperation) :
    List PlacedComponent :=
  match operation.componentId, operation.width, operation.height with
  | some cid, some w, some h =>
    if cid = "" then sketch
    else sketch.map (fun comp =>
      if comp.id = cid then
        { comp with
          width := max 20 w,
          height := if comp.type = "HorizontalLine" then max 2 h else max 20 h }
      else comp)
  | _, _, _ => sketch

/-- executeAdd (operationExecutor.ts:71).  The generated id
component-(Date.now())-(random) is modelled by the oracle gen applied to a
counter that advances only when an add actually fires (Date.now/Math.random
are only called past the guard).  Returns the new sketch and counter. -/
def executeAdd (gen : Nat → String) (counter : Nat)
    (sketch : List PlacedComponent) (operation : ComponentOperation) :
    List PlacedComponent × Nat :=
  match operation.componentType, operation.x, operation.y,
      operation.width, operation.height with
  | some ct, some ax, some ay, some aw, some ah =>
    if ct = "" then (sketch, counter)
    else
      (sketch ++ [{
        id := gen counter,
        type := ct,
        x := ax,
        y := ay,
        width := max 20 aw,
        height := if ct = "HorizontalLine" then max 2 ah else max 20 ah,
        props := operation.props.getD [] }], counter + 1)
  | _, _, _, _, _ => (sketch, counter)

/-- executeDelete (operationExecutor.ts:96). -/
def executeDelete (sketch : List PlacedComponent) (operation : ComponentOperation) :
    List PlacedComponent :=
  match operation.componentId with
  | some cid =>
    if cid = "" then sketch
    else sketch.filter (fun comp => comp.id != cid)
  | none => sketch

/-- Shallow merge of two props maps, modelling the JS spread
(...comp.props, ...operation.props): existing keys keep their position but
take the new value; keys only in the update are appended in order. -/
def mergeProps (old upd : List (String × String)) : List (String × String) :=
  old.map (fun kv =>
    match upd.lookup kv.1 with
    | some v => (kv.1, v)
    | none => kv)
  ++ upd.filter (fun kv => !(old.any (fun kv2 => kv2.1 == kv.1)))

/-- executeModify (operationExecutor.ts:104). -/
def executeModify (sketch : List PlacedComponent) (operation : ComponentOperation) :
    List PlacedComponent :=
  match operation.componentId, operation.props with
  | some cid, some ps =>
    if cid = "" then sketch
    else sketch.map (fun comp =>
      if comp.id = cid then { comp with props := mergeProps comp.props ps } else comp)
  | _, _ => sketch

/-- Math.min over a list, used only on non-empty member lists. -/
def jsMin : List ℚ → ℚ
  | [] => 0
  | a :: rest => rest.foldl min a

/-- Math.max over a list, used only on non-empty member lists. -/
def jsMax : List ℚ → ℚ
  | [] => 0
  | a :: rest => rest.foldl max a

/-- executeAlign (operationExecutor.ts:116).  The alignment switch has a
default branch returning the sketch unchanged, so alignment is kept as an
arbitrary runtime string. -/
def executeAlign (sketch : List PlacedComponent) (operation : ComponentOperation) :
    List PlacedComponent :=
  match operation.targetIds, operation.alignment with
  | some targetIds, some alignment =>
    if targetIds.length < 2 then sketch
    else
      let targetComponents := sketch.filter (fun comp => targetIds.contains comp.id)
      if targetComponents.length < 2 then sketch
      else
        match alignment with
        | "left" =>
          let alignedValue := jsMin (targetComponents.map (fun c => c.x))
          sketch.map (fun comp =>
            if targetIds.contains comp.id then { comp with x := alignedValue } else comp)
        | "right" =>
          let alignedValue := jsMax (targetComponents.map (fun c => c.x + c.width))
          sketch.map (fun comp =>
            if targetIds.contains comp.id then
              { comp with x := alignedValue - comp.width } else comp)
        | "center" =>
          let alignedValue :=
            (targetComponents.foldl (fun sum c => sum + c.x + c.width / 2) 0)
              / (targetComponents.length : ℚ)
          sketch.map (fun comp =>
            if targetIds.contains comp.id then
              { comp with x := alignedValue - comp.width / 2 } else comp)
        | "top" =>
          let alignedValue := jsMin (targetComponents.map (fun c => c.y))
          sketch.map (fun comp =>
            if targetIds.contains comp.id then { comp with y := alignedValue } else comp)
        | "bottom" =>
          let alignedValue := jsMax (targetComponents.map (fun c => c.y + c.height))
          sketch.map (fun comp =>
            if targetIds.contains comp.id then
              { comp with y := alignedValue - comp.height } else comp)
        | _ => sketch
  | _, _ => sketch

/-- Stable insertion into a list sorted by ascending x; an element is placed
before every later element of equal x, matching JS stable sort with the
comparator (a, b) => a.x - b.x. -/
def insertByX (c : PlacedComponent) : List PlacedComponent → List PlacedComponent
  | [] => [c]
  | d :: rest => if c.x ≤ d.x then c :: d :: rest else d :: insertByX c rest

/-- Stable sort by ascending x, modelling targetComponents.sort((a, b) => a.x - b.x)
(operationExecutor.ts:180; Array.prototype.sort is stable, and for a
consistent comparator the stable-sorted result is unique). -/
def sortByX : List PlacedComponent → List PlacedComponent
  | [] => []
  | c :: rest => insertByX c (sortByX rest)

/-- The map with the closure-mutated currentX accumulator
(operationExecutor.ts:184): each member gets the running x, which then
advances by that member's width plus the spacing. -/
def distributeScan (currentX spacing : ℚ) :
    List PlacedComponent → List PlacedComponent
  | [] => []
  | comp :: rest =>
    { comp with x := currentX } :: distributeScan (currentX + comp.width + spacing) spacing rest

/-- executeDistribute (operationExecutor.ts:169). -/
def executeDistribute (sketch : List PlacedComponent) (operation : ComponentOperation) :
    List PlacedComponent :=
  match operation.targetIds, operation.spacing with
  | some targetIds, some spacing =>
    if targetIds.length < 2 then sketch
    else
      let targetComponents := sketch.filter (fun comp => targetIds.contains comp.id)
      if targetComponents.length < 2 then sketch
      else
        let sorted := sortByX targetComponents
        let firstX := match sorted with | [] => 0 | c :: _ => c.x
        let updatedComponents := distributeScan firstX spacing sorted
        sketch.map (fun comp =>
          match updatedComponents.find? (fun uc => uc.id == comp.id) with
          | some updated => updated
          | none => comp)
  | _, _ => sketch

/-- One iteration of the executeOperations loop (operationExecutor.ts:10):
the switch on operation.type; an unmatched kind falls through and leaves the
state unchanged.  The state carries the sketch and the id-generation counter. -/
def executeOp (gen : Nat → String) (st : List PlacedComponent × Nat)
    (operation : ComponentOperation) : List PlacedComponent × Nat :=
  match operation.type with
  | "move" => (executeMove st.1 operation, st.2)
  | "resize" => (executeResize st.1 operation, st.2)
  | "add" => executeAdd gen st.2 st.1 operation
  | "delete" => (executeDelete st.1 operation, st.2)
  | "modify" => (executeModify st.1 operation, st.2)
  | "align" => (executeAlign st.1 operation, st.2)
  | "distribute" => (executeDistribute st.1 operation, st.2)
  | _ => st

/-- executeOperations (operationExecutor.ts:4): sequential application of
the batch, each operation against the sketch left by the previous one. -/
def executeOperations (gen : Nat → String) (currentSketch : List PlacedComponent)
    (operations : List ComponentOperation) : List PlacedComponent :=
  (operations.foldl (executeOp gen) (currentSketch, 0)).1

/-! Spatial analyzer, from src/src/lib/agent/sketchParser.ts. -/

/-- The axis-aligned bounding box record of calculateBounds. -/
structure Bounds where
  minX : ℚ
  minY : ℚ
  maxX : ℚ
  maxY : ℚ
deriving Repr, DecidableEq

/-- One step of the calculateBounds fold (sketchParser.ts:85). -/
def boundsStep (b : Bounds) (comp : PlacedComponent) : Bounds :=
  { minX := min b.minX comp.x,
    minY := min b.minY comp.y,
    maxX := max b.maxX (comp.x + comp.width),
    maxY := max b.maxY (comp.y + comp.height) }

/-- calculateBounds (sketchParser.ts:79).  The source folds from plus/minus
Infinity; for a non-empty list the first step replaces every infinity by the
head's values, which is what the head-seeded fold below computes.  The empty
case (all-infinite in JS) is never consumed, since parseSketch returns early
on an empty sketch; it is given a dummy value here. -/
def calculateBounds : List PlacedComponent → Bounds
  | [] => { minX := 0, minY := 0, maxX := 0, maxY := 0 }
  | comp :: rest =>
    rest.foldl boundsStep
      { minX := comp.x, minY := comp.y,
        maxX := comp.x + comp.width, maxY := comp.y + comp.height }

/-- ComponentDescription (sketchParser.ts:10). -/
structure ComponentDescription where
  id : String
  type : String
  position : String
  size : String
  description : String
deriving Repr, DecidableEq

/-- Math.round: round half toward positive infinity. -/
def jsRound (q : ℚ) : Int := ⌊q + 1 / 2⌋

/-- Number.prototype.toFixed(1) for the non-negative finite values produced
by the analyzer: round to one decimal and print as d.d. -/
def ratToFixed1 (q : ℚ) : String :=
  toString (⌊q * 10 + 1 / 2⌋ / 10) ++ "." ++ toString ((⌊q * 10 + 1 / 2⌋ % 10).natAbs)

/-- describeComponent (sketchParser.ts:95).  Note that the position buckets
compare the component's absolute x and y against 33 and 66 percent of the
bounding-box width and height, while the percent strings use
bounding-box-relative coordinates. -/
def describeComponent (component : PlacedComponent) (bounds : Bounds) :
    ComponentDescription :=
  let canvasWidth := bounds.maxX - bounds.minX
  let canvasHeight := bounds.maxY - bounds.minY
  let xPercent := ratToFixed1 ((component.x - bounds.minX) / canvasWidth * 100)
  let yPercent := ratToFixed1 ((component.y - bounds.minY) / canvasHeight * 100)
  let position :=
    (if component.x < canvasWidth * (33 / 100) then "left side"
     else if component.x > canvasWidth * (66 / 100) then "right side"
     else "center")
    ++
    (if component.y < canvasHeight * (33 / 100) then ", top section"
     else if component.y > canvasHeight * (66 / 100) then ", bottom section"
     else ", middle section")
  let size := toString (jsRound component.width) ++ "x"
    ++ toString (jsRound component.height) ++ "px"
  { id := component.id,
    type := component.type,
    position := position,
    size := size,
    description := component.type ++ " at " ++ position ++ " (" ++ xPercent
      ++ "%, " ++ yPercent ++ "%), size " ++ size }

/-- SpatialRelationship (sketchParser.ts:18); the relationship tag is one of
overlapping, above, below, left, right, aligned. -/
structure SpatialRelationship where
  component1 : String
  component2 : String
  relationship : String
  distance : Option ℚ := none
deriving Repr, DecidableEq

/-- isOverlapping (sketchParser.ts:207): negation of strict separation on
either axis. -/
def isOverlapping (comp1 comp2 : PlacedComponent) : Bool :=
  !(decide (comp1.x + comp1.width < comp2.x)
    || decide (comp2.x + comp2.width < comp1.x)
    || decide (comp1.y + comp1.height < comp2.y)
    || decide (comp2.y + comp2.height < comp1.y))

/-- Spec-side definition: the two components' closed axis-aligned bounding
boxes intersect (share at least one point). -/
def aabbIntersect (comp1 comp2 : PlacedComponent) : Prop :=
  comp2.x ≤ comp1.x + comp1.width ∧ comp1.x ≤ comp2.x + comp2.width
    ∧ comp2.y ≤ comp1.y + comp1.height ∧ comp1.y ≤ comp2.y + comp2.height

instance (comp1 comp2 : PlacedComponent) : Decidable (aabbIntersect comp1 comp2) := by
  unfold aabbIntersect; infer_instance

/-- The body of the pair loop of identifyRelationships
(sketchParser.ts:139): an overlapping pair emits only the overlapping
relation; otherwise at most one vertical relation, then at most one
horizontal relation, then the alignment check are pushed in that order.
The source also computes verticalDistance and horizontalDistance locals that
are never read; they are omitted. -/
def pairRelationships (comp1 comp2 : PlacedComponent) : List SpatialRelationship :=
  if isOverlapping comp1 comp2 then
    [{ component1 := comp1.id, component2 := comp2.id, relationship := "overlapping" }]
  else
    let horizontalOverlap :=
      max 0 (min (comp1.x + comp1.width) (comp2.x + comp2.width) - max comp1.x comp2.x)
    let verticalRels :=
      if horizontalOverlap > min comp1.width comp2.width * (1 / 2) then
        if comp1.y + comp1.height < comp2.y then
          [{ component1 := comp1.id, component2 := comp2.id, relationship := "above",
             distance := some (comp2.y - (comp1.y + comp1.height)) }]
        else if comp2.y + comp2.height < comp1.y then
          [{ component1 := comp1.id, component2 := comp2.id, relationship := "below",
             distance := some (comp1.y - (comp2.y + comp2.height)) }]
        else []
      else []
    let verticalOverlap :=
      max 0 (min (comp1.y + comp1.height) (comp2.y + comp2.height) - max comp1.y comp2.y)
    let horizontalRels :=
      if verticalOverlap > min comp1.height comp2.height * (1 / 2) then
        if comp1.x + comp1.width < comp2.x then
          [{ component1 := comp1.id, component2 := comp2.id, relationship := "left",
             distance := some (comp2.x - (comp1.x + comp1.width)) }]
        else if comp2.x + comp2.width < comp1.x then
          [{ component1 := comp1.id, component2 := comp2.id, relationship := "right",
             distance := some (comp1.x - (comp2.x + comp2.width)) }]
        else []
      else []
    let alignedRels :=
      if |comp1.x - comp2.x| < 20 then
        [{ component1 := comp1.id, component2 := comp2.id, relationship := "aligned" }]
      else []
    verticalRels ++ horizontalRels ++ alignedRels

/-- All ordered pairs (i, j) with i < j, in the order visited by the nested
loops of identifyRelationships. -/
def orderedPairs {α : Type} : List α → List (α × α)
  | [] => []
  | c :: rest => rest.map (fun d => (c, d)) ++ orderedPairs rest

/-- identifyRelationships (sketchParser.ts:130): the nested i < j loops,
flattened over the ordered pairs. -/
def identifyRelationships (components : List PlacedComponent) :
    List SpatialRelationship :=
  (orderedPairs components).flatMap (fun p => pairRelationships p.1 p.2)

/-! Batch validation and the pipeline around the executor.  The validator
node, executor node and state machine belong to the sketchagent service
(sketchagent/ARCHITECTURE.md); their code is not part of src/, so they are
modelled from the spec. -/

/-- The closed 11-variant component type enum of the data model. -/
def KNOWN_COMPONENT_TYPES : List String :=
  ["Container", "Button", "Input", "ImagePlaceholder", "Text", "HorizontalLine",
   "Heading", "Footer", "NavigationBox", "List", "Table"]

/-- The 7 operation kinds of the operation language. -/
def OPERATION_KINDS : List String :=
  ["move", "resize", "add", "delete", "modify", "align", "distribute"]

/-- Whether an optional componentId refers to a component of the sketch. -/
def componentIdExists (sketch : List PlacedComponent) (cid : Option String) : Bool :=
  match cid with
  | none => false
  | some c => sketch.any (fun comp => comp.id == c)

/-- Modelled from the spec: the per-operation rules of the validator node
(validate_node of the sketchagent service, not under src/), spec section 4.2:
move/resize/delete/modify need an existing componentId; move needs numeric
x and y; resize needs numeric width and height with the requested width at
least 20 and the requested height at least 20, or at least 2 when the target
is a HorizontalLine; add needs a known componentType and numeric
x, y, width, height; align needs at least 2 targetIds and an alignment;
distribute needs at least 2 targetIds and a numeric spacing; an unrecognized
kind fails validation. -/
def validOp (sketch : List PlacedComponent) (op : ComponentOperation) : Bool :=
  match op.type with
  | "move" =>
    componentIdExists sketch op.componentId && op.x.isSome && op.y.isSome
  | "resize" =>
    componentIdExists sketch op.componentId &&
      (match op.width, op.height,
          sketch.find? (fun c => some c.id == op.componentId) with
       | some w, some h, some target =>
         decide (20 ≤ w) &&
           (if target.type = "HorizontalLine" then decide (2 ≤ h) else decide (20 ≤ h))
       | _, _, _ => false)
  | "add" =>
    (match op.componentType with
     | some ct => KNOWN_COMPONENT_TYPES.contains ct
     | none => false)
      && op.x.isSome && op.y.isSome && op.width.isSome && op.height.isSome
  | "delete" => componentIdExists sketch op.componentId
  | "modify" => componentIdExists sketch op.componentId && op.props.isSome
  | "align" =>
    (match op.targetIds with
     | some ts => decide (2 ≤ ts.length)
     | none => false) && op.alignment.isSome
  | "distribute" =>
    (match op.targetIds with
     | some ts => decide (2 ≤ ts.length)
     | none => false) && op.spacing.isSome
  | _ => false

/-- Modelled from the spec: the all-or-nothing batch validation of the
validator node (not under src/): an empty batch is rejected, and a single
failing operation invalidates the whole batch with one aggregated failure. -/
def validateBatch (sketch : List PlacedComponent)
    (operations : List ComponentOperation) : Except String Unit :=
  if operations.isEmpty then Except.error "No operations provided"
  else
    if ((operations.filter (fun op => !validOp sketch op)).length) = 0 then
      Except.ok ()
    else
      Except.error
        (toString (operations.filter (fun op => !validOp sketch op)).length
          ++ " operation(s) failed validation")

/-- Terminal pipeline state: step, error message and the resulting sketch. -/
structure PipelineState where
  step : String
  error : String
  sketch : List PlacedComponent
deriving Repr, DecidableEq

/-- Modelled from the spec: the validate-then-execute tail of the pipeline
state machine (sketchagent service, not under src/), spec sections 4.4 and
4.2: on validation failure the pipeline stops in the error state with a
"Validation failed: <details>" message and the sketch is left untouched;
otherwise the validated batch is executed to produce the new sketch. -/
def runValidatedPipeline (gen : Nat → String) (sketch : List PlacedComponent)
    (operations : List ComponentOperation) : PipelineState :=
  match validateBatch sketch operations with
  | Except.error e =>
    { step := "error", error := "Validation failed: " ++ e, sketch := sketch }
  | Except.ok _ =>
    { step := "complete", error := "",
      sketch := executeOperations gen sketch operations }

/-- Whether a runtime operation tag is one of the 7 recognized kinds. -/
def knownOpKind (t : String) : Bool := OPERATION_KINDS.contains t

/-- The per-component size floors of the data model: width at least 20, and
height at least 2 for HorizontalLine components, else at least 20. -/
def componentOk (comp : PlacedComponent) : Bool :=
  decide (20 ≤ comp.width) &&
    (if comp.type = "HorizontalLine" then decide (2 ≤ comp.height)
     else decide (20 ≤ comp.height))

/-- Modelled from the spec: the executor node of the sketchagent service
(not under src/), spec sections 4.3 and 7: it applies the batch with the
embedded executeOperations, fails with an ExecutionError on an operation of
unrecognized kind, and fails with an ExecutionError when the post-condition
(every remaining component satisfies the size floors) is violated, rather
than returning a sketch or silently correcting it. -/
def executeNode (gen : Nat → String) (sketch : List PlacedComponent)
    (operations : List ComponentOperation) :
    Except String (List PlacedComponent) :=
  if operations.any (fun op => !knownOpKind op.type) then
    Except.error "ExecutionError: unrecognized operation kind"
  else
    if (executeOperations gen sketch operations).all componentOk then
      Except.ok (executeOperations gen sketch operations)
    else
      Except.error "ExecutionError: post-condition violated"

/-! Shared helper lemmas. -/

theorem executeOp_move (gen : Nat → String) (st : List PlacedComponent × Nat)
    (op : ComponentOperation) (h : op.type = "move") :
    executeOp gen st op = (executeMove st.1 op, st.2) := by
  unfold executeOp; rw [h]; rfl

theorem executeOp_resize (gen : Nat → String) (st : List PlacedComponent × Nat)
    (op : ComponentOperation) (h : op.type = "resize") :
    executeOp gen st op = (executeResize st.1 op, st.2) := by
  unfold executeOp; rw [h]; rfl

theorem executeOp_add (gen : Nat → String) (st : List PlacedComponent × Nat)
    (op : ComponentOperation) (h : op.type = "add") :
    executeOp gen st op = executeAdd gen st.2 st.1 op := by
  unfold executeOp; rw [h]; rfl

theorem executeOp_delete (gen : Nat → String) (st : List PlacedComponent × Nat)
    (op : ComponentOperation) (h : op.type = "delete") :
    executeOp gen st op = (executeDelete st.1 op, st.2) := by
  unfold executeOp; rw [h]; rfl

theorem executeOp_modify (gen : Nat → String) (st : List PlacedComponent × Nat)
    (op : ComponentOperation) (h : op.type = "modify") :
    executeOp gen st op = (executeModify st.1 op, st.2) := by
  unfold executeOp; rw [h]; rfl

theorem executeOp_align (gen : Nat → String) (st : List PlacedComponent × Nat)
    (op : ComponentOperation) (h : op.type = "align") :
    executeOp gen st op = (executeAlign st.1 op, st.2) := by
  unfold executeOp; rw [h]; rfl

theorem executeOp_distribute (gen : Nat → String) (st : List PlacedComponent × Nat)
    (op : ComponentOperation) (h : op.type = "distribute") :
    executeOp gen st op = (executeDistribute st.1 op, st.2) := by
  unfold executeOp; rw [h]; rfl

theorem executeOp_unknown (gen : Nat → String) (st : List PlacedComponent × Nat)
    (op : ComponentOperation) (h : knownOpKind op.type = false) :
    executeOp gen st op = st := by
  unfold executeOp
  split
  all_goals try rfl
  all_goals (rename_i x heq; rw [heq] at h; simp [knownOpKind, OPERATION_KINDS] at h)

theorem two_le_length_of_mem_ne {α : Type} {a b : α} {l : List α}
    (ha : a ∈ l) (hb : b ∈ l) (hne : a ≠ b) : 2 ≤ l.length := by
  rcases l with _ | ⟨x, _ | ⟨y, rest⟩⟩
  · simp at ha
  · simp at ha hb; exact absurd (ha.trans hb.symm) hne
  · simp

/-! Claim C3. -/

/-- The first operation of the C3 scenario batch: add a Button at x = 0. -/
def c3AddButton : ComponentOperation :=
  { type := "add", componentType := some "Button", x := some 0, y := some 0,
    width := some 100, height := some 50 }

/-- The second operation of the C3 scenario batch: move the id generated by
the add (the oracle's first output) to (50, 50). -/
def c3MoveNew (gen : Nat → String) : ComponentOperation :=
  { type := "move", componentId := some (gen 0), x := some 50, y := some 50 }

/-- C3: executeOperations equals the left fold of the single-operation
executor over the batch starting from the sketch, so operations apply
sequentially each against the state left by the previous one; in
particular the batch [add a Button at x = 0, move the new id to (50, 50)]
produces the input sketch plus exactly one extra Button at (50, 50). -/
theorem c3_executeOperations_sequential_fold
    (gen : Nat → String) (sketch : List PlacedComponent)
    (hfresh : ∀ c ∈ sketch, c.id ≠ gen 0) (hne : gen 0 ≠ "") :
    (∀ (s : List PlacedComponent) (ops : List ComponentOperation),
      executeOperations gen s ops = (ops.foldl (executeOp gen) (s, 0)).1)
    ∧ executeOperations gen sketch [c3AddButton, c3MoveNew gen]
      = sketch ++ [{ id := gen 0, type := "Button", x := 50, y := 50,
                     width := 100, height := 50, props := [] }] := by
  refine ⟨fun s ops => rfl, ?_⟩
  have hadd : executeAdd gen 0 sketch c3AddButton
      = (sketch ++ [{ id := gen 0, type := "Button", x := 0, y := 0,
                      width := 100, height := 50, props := [] }], 1) := by
    simp only [executeAdd, c3AddButton]
    norm_num
    decide
  have hmove : executeMove
      (sketch ++ [{ id := gen 0, type := "Button", x := 0, y := 0,
                    width := 100, height := 50, props := [] }]) (c3MoveNew gen)
      = sketch ++ [{ id := gen 0, type := "Button", x := 50, y := 50,
                     width := 100, height := 50, props := [] }] := by
    simp only [executeMove, c3MoveNew]
    rw [if_neg hne, List.map_append]
    congr 1
    · calc sketch.map (fun comp =>
            if comp.id = gen 0 then { comp with x := 50, y := 50 } else comp)
          = sketch.map id := List.map_congr_left (fun c hc => if_neg (hfresh c hc))
        _ = sketch := List.map_id sketch
    · simp
  calc executeOperations gen sketch [c3AddButton, c3MoveNew gen]
      = (executeOp gen (executeOp gen (sketch, 0) c3AddButton) (c3MoveNew gen)).1 := rfl
    _ = (executeOp gen (executeAdd gen 0 sketch c3AddButton) (c3MoveNew gen)).1 := by
        rw [executeOp_add gen (sketch, 0) c3AddButton rfl]
    _ = sketch ++ [{ id := gen 0, type := "Button", x := 50, y := 50,
                     width := 100, height := 50, props := [] }] := by
        rw [hadd, executeOp_move gen _ (c3MoveNew gen) rfl]
        exact hmove

/-- Witness for C3 at a concrete input: one pre-existing component whose id
differs from the generated one. -/
def c3Gen : Nat → String := fun n => "component-" ++ toString n

/-- The pre-batch sketch used by the C3 and C4 witnesses. -/
def wInput : PlacedComponent := { id := "a", type := "Input", x := 10, y := 10,
                                  width := 100, height := 30, props := [] }

theorem c3_witness :
    (∀ (s : List PlacedComponent) (ops : List ComponentOperation),
      executeOperations c3Gen s ops = (ops.foldl (executeOp c3Gen) (s, 0)).1)
    ∧ executeOperations c3Gen [wInput] [c3AddButton, c3MoveNew c3Gen]
      = [wInput] ++ [{ id := c3Gen 0, type := "Button", x := 50, y := 50,
                       width := 100, height := 50, props := [] }] :=
  c3_executeOperations_sequential_fold c3Gen [wInput]
    (by intro c hc; simp [wInput, c3Gen] at hc ⊢; rw [hc]; decide)
    (by decide)

/-! Claim C4. -/

/-- C4: every executed resize or add (with its required fields present)
leaves the targeted or created component with width max(20, requested) and
height max(2, requested) for a HorizontalLine, max(20, requested)
otherwise, regardless of the requested values. -/
theorem c4_resize_add_floors :
    (∀ (sketch : List PlacedComponent) (op : ComponentOperation) (cid : String) (w h : ℚ),
      op.componentId = some cid → cid ≠ "" → op.width = some w → op.height = some h →
      ∀ c ∈ executeResize sketch op, c.id = cid →
        c.width = max 20 w
        ∧ c.height = (if c.type = "HorizontalLine" then max 2 h else max 20 h))
    ∧ (∀ (gen : Nat → String) (n : Nat) (sketch : List PlacedComponent)
        (op : ComponentOperation) (ct : String) (ax ay w h : ℚ),
      op.componentType = some ct → ct ≠ "" → op.x = some ax → op.y = some ay →
      op.width = some w → op.height = some h →
      executeAdd gen n sketch op
        = (sketch ++ [{ id := gen n, type := ct, x := ax, y := ay,
                        width := max 20 w,
                        height := if ct = "HorizontalLine" then max 2 h else max 20 h,
                        props := op.props.getD [] }], n + 1)) := by
  constructor
  · intro sketch op cid w h h1 h2 h3 h4 c hc hcid
    have he : executeResize sketch op
        = sketch.map (fun comp =>
            if comp.id = cid then
              { comp with
                width := max 20 w,
                height := if comp.type = "HorizontalLine" then max 2 h else max 20 h }
            else comp) := by
      unfold executeResize
      simp only [h1, h3, h4]
      rw [if_neg h2]
    rw [he] at hc
    obtain ⟨c0, hc0, rfl⟩ := List.mem_map.mp hc
    by_cases hcc : c0.id = cid
    · rw [if_pos hcc]
      exact ⟨rfl, rfl⟩
    · rw [if_neg hcc] at hcid ⊢
      exact absurd hcid hcc
  · intro gen n sketch op ct ax ay w h h1 h2 h3 h4 h5 h6
    unfold executeAdd
    simp only [h1, h3, h4, h5, h6]
    rw [if_neg h2]

/-- The Container used by the C4 witness (the spec scenario: resize with
width 5 and height 5 on a Container yields 20 by 20). -/
def wContainer : PlacedComponent :=
  { id := "a", type := "Container", x := 0, y := 0, width := 100, height := 50,
    props := [] }

/-- The resize operation of the C4 witness. -/
def c4Rop : ComponentOperation :=
  { type := "resize", componentId := some "a", width := some 5, height := some 5 }

theorem c4_witness :
    (c4Rop.componentId = some "a" ∧ ("a" : String) ≠ ""
      ∧ c4Rop.width = some 5 ∧ c4Rop.height = some 5)
    ∧ (∀ c ∈ executeResize [wContainer] c4Rop, c.id = "a" →
        c.width = max 20 5
        ∧ c.height = (if c.type = "HorizontalLine" then max 2 5 else max 20 5)) :=
  ⟨⟨rfl, by decide, rfl, rfl⟩,
    c4_resize_add_floors.1 [wContainer] c4Rop "a" 5 5 rfl (by decide) rfl rfl⟩

/-! Claim C9. -/

/-- C9: the executor is total (every guard failure returns the sketch, no
throw path exists in the embedding), an operation with a missing required
field or with fewer than 2 (present) align/distribute targets leaves the
intermediate state unchanged, and the remaining operations of the batch
still execute normally. -/
theorem c9_missing_fields_noop (gen : Nat → String) :
    (∀ (st : List PlacedComponent × Nat) (op : ComponentOperation),
      op.type = "move" →
      (op.componentId = none ∨ op.componentId = some "" ∨ op.x = none ∨ op.y = none) →
      executeOp gen st op = st)
    ∧ (∀ (st : List PlacedComponent × Nat) (op : ComponentOperation),
      op.type = "resize" →
      (op.componentId = none ∨ op.componentId = some ""
        ∨ op.width = none ∨ op.height = none) →
      executeOp gen st op = st)
    ∧ (∀ (st : List PlacedComponent × Nat) (op : ComponentOperation),
      op.type = "add" →
      (op.componentType = none ∨ op.componentType = some "" ∨ op.x = none
        ∨ op.y = none ∨ op.width = none ∨ op.height = none) →
      executeOp gen st op = st)
    ∧ (∀ (st : List PlacedComponent × Nat) (op : ComponentOperation),
      op.type = "modify" →
      (op.componentId = none ∨ op.componentId = some "" ∨ op.props = none) →
      executeOp gen st op = st)
    ∧ (∀ (st : List PlacedComponent × Nat) (op : ComponentOperation),
      op.type = "delete" →
      (op.componentId = none ∨ op.componentId = some "") →
      executeOp gen st op = st)
    ∧ (∀ (st : List PlacedComponent × Nat) (op : ComponentOperation),
      op.type = "align" →
      (op.targetIds = none ∨ op.alignment = none) →
      executeOp gen st op = st)
    ∧ (∀ (st : List PlacedComponent × Nat) (op : ComponentOperation)
        (ts : List String),
      op.type = "align" → op.targetIds = some ts →
      (ts.length < 2 ∨ (st.1.filter (fun c => ts.contains c.id)).length < 2) →
      executeOp gen st op = st)
    ∧ (∀ (st : List PlacedComponent × Nat) (op : ComponentOperation),
      op.type = "distribute" →
      (op.targetIds = none ∨ op.spacing = none) →
      executeOp gen st op = st)
    ∧ (∀ (st : List PlacedComponent × Nat) (op : ComponentOperation)
        (ts : List String),
      op.type = "distribute" → op.targetIds = some ts →
      (ts.length < 2 ∨ (st.1.filter (fun c => ts.contains c.id)).length < 2) →
      executeOp gen st op = st)
    ∧ (∀ (st : List PlacedComponent × Nat) (op : ComponentOperation)
        (rest : List ComponentOperation),
      executeOp gen st op = st →
      (op :: rest).foldl (executeOp gen) st = rest.foldl (executeOp gen) st) := by
  refine ⟨?_, ?_, ?_, ?_, ?_, ?_, ?_, ?_, ?_, ?_⟩
  · intro st op ht hd
    rw [executeOp_move gen st op ht]
    have : executeMove st.1 op = st.1 := by
      unfold executeMove
      cases hcid : op.componentId <;> cases hx : op.x <;> cases hy : op.y <;>
        simp_all
    rw [this]
  · intro st op ht hd
    rw [executeOp_resize gen st op ht]
    have : executeResize st.1 op = st.1 := by
      unfold executeResize
      cases hcid : op.componentId <;> cases hw : op.width <;> cases hh : op.height <;>
        simp_all
    rw [this]
  · intro st op ht hd
    rw [executeOp_add gen st op ht]
    cases hct : op.componentType <;> cases hx : op.x <;> cases hy : op.y <;>
      cases hw : op.width <;> cases hh : op.height <;> simp_all [executeAdd]
  · intro st op ht hd
    rw [executeOp_modify gen st op ht]
    have : executeModify st.1 op = st.1 := by
      unfold executeModify
      cases hcid : op.componentId <;> cases hp : op.props <;> simp_all
    rw [this]
  · intro st op ht hd
    rw [executeOp_delete gen st op ht]
    have : executeDelete st.1 op = st.1 := by
      unfold executeDelete
      cases hcid : op.componentId <;> simp_all
    rw [this]
  · intro st op ht hd
    rw [executeOp_align gen st op ht]
    have : executeAlign st.1 op = st.1 := by
      unfold executeAlign
      cases hts : op.targetIds <;> cases hal : op.alignment <;> simp_all
    rw [this]
  · intro st op ts ht hts hd
    rw [executeOp_align gen st op ht]
    have : executeAlign st.1 op = st.1 := by
      unfold executeAlign
      cases hal : op.alignment
      · simp only [hts]
      · simp only [hts, hal]
        rcases hd with hd | hd
        · rw [if_pos hd]
        · by_cases hlen : ts.length < 2
          · rw [if_pos hlen]
          · rw [if_neg hlen, if_pos hd]
    rw [this]
  · intro st op ht hd
    rw [executeOp_distribute gen st op ht]
    have : executeDistribute st.1 op = st.1 := by
      unfold executeDistribute
      cases hts : op.targetIds <;> cases hsp : op.spacing <;> simp_all
    rw [this]
  · intro st op ts ht hts hd
    rw [executeOp_distribute gen st op ht]
    have : executeDistribute st.1 op = st.1 := by
      unfold executeDistribute
      cases hsp : op.spacing
      · simp only [hts]
      · simp only [hts, hsp]
        rcases hd with hd | hd
        · rw [if_pos hd]
        · by_cases hlen : ts.length < 2
          · rw [if_pos hlen]
          · rw [if_neg hlen, if_pos hd]
    rw [this]
  · intro st op rest hnoop
    rw [List.foldl_cons, hnoop]

/-- A move operation missing its x and y fields, for the C9 witness. -/
def c9MoveNoXY : ComponentOperation := { type := "move", componentId := some "a" }

theorem c9_witness :
    executeOp c3Gen ([wInput], 0) c9MoveNoXY = ([wInput], 0)
    ∧ ([c9MoveNoXY] : List ComponentOperation).foldl (executeOp c3Gen) ([wInput], 0)
      = ([] : List ComponentOperation).foldl (executeOp c3Gen) ([wInput], 0) := by
  have h1 := (c9_missing_fields_noop c3Gen).1 ([wInput], 0) c9MoveNoXY rfl
    (Or.inr (Or.inr (Or.inl rfl)))
  exact ⟨h1, (c9_missing_fields_noop c3Gen).2.2.2.2.2.2.2.2.2 ([wInput], 0)
    c9MoveNoXY [] h1⟩

/-! Claim C10: helper lemmas about id preservation. -/

theorem map_preserves_ids (sketch : List PlacedComponent)
    (f : PlacedComponent → PlacedComponent) (h : ∀ c, (f c).id = c.id) :
    (sketch.map f).map (fun c => c.id) = sketch.map (fun c => c.id) := by
  rw [List.map_map]
  exact List.map_congr_left (fun c _ => h c)

theorem executeMove_ids (sketch : List PlacedComponent) (op : ComponentOperation) :
    (executeMove sketch op).map (fun c => c.id) = sketch.map (fun c => c.id) := by
  unfold executeMove
  split
  · split_ifs
    · rfl
    · apply map_preserves_ids
      intro c
      split <;> rfl
  · rfl

theorem executeResize_ids (sketch : List PlacedComponent) (op : ComponentOperation) :
    (executeResize sketch op).map (fun c => c.id) = sketch.map (fun c => c.id) := by
  unfold executeResize
  split
  · split_ifs
    · rfl
    · apply map_preserves_ids
      intro c
      split <;> rfl
  · rfl

theorem executeModify_ids (sketch : List PlacedComponent) (op : ComponentOperation) :
    (executeModify sketch op).map (fun c => c.id) = sketch.map (fun c => c.id) := by
  unfold executeModify
  split
  · split_ifs
    · rfl
    · apply map_preserves_ids
      intro c
      split <;> rfl
  · rfl

theorem executeAlign_ids (sketch : List PlacedComponent) (op : ComponentOperation) :
    (executeAlign sketch op).map (fun c => c.id) = sketch.map (fun c => c.id) := by
  unfold executeAlign
  split
  · simp only []
    split_ifs with h1 h2 <;> try rfl
    split <;> try rfl
    all_goals (apply map_preserves_ids; intro c; split <;> rfl)
  · rfl

theorem executeDistribute_ids (sketch : List PlacedComponent) (op : ComponentOperation) :
    (executeDistribute sketch op).map (fun c => c.id) = sketch.map (fun c => c.id) := by
  unfold executeDistribute
  split
  · simp only []
    split_ifs with h1 h2 <;> try rfl
    apply map_preserves_ids
    intro c
    split
    · rename_i u hu
      have := List.find?_some hu
      simpa using this
    · rfl
  · rfl

theorem executeDelete_ids_sublist (sketch : List PlacedComponent)
    (op : ComponentOperation) :
    List.Sublist ((executeDelete sketch op).map (fun c => c.id))
      (sketch.map (fun c => c.id)) := by
  unfold executeDelete
  split
  · split_ifs
    · exact List.Sublist.refl _
    · exact (List.filter_sublist sketch).map (fun c => c.id)
  · exact List.Sublist.refl _

/-- C10: a move, resize, or modify only changes the component whose id is
the operation's componentId, and only in the fields the operation sets;
every operation kind preserves the relative order of surviving component
ids, and an add appends the generated id at the end. -/
theorem c10_frame_conditions (gen : Nat → String) :
    (∀ (sketch : List PlacedComponent) (op : ComponentOperation) (cid : String)
        (mx my : ℚ),
      op.componentId = some cid → cid ≠ "" → op.x = some mx → op.y = some my →
      (executeMove sketch op).length = sketch.length
      ∧ (∀ c ∈ executeMove sketch op,
          (c.id ≠ cid → c ∈ sketch)
          ∧ (c.id = cid → ∃ c0 ∈ sketch, c0.id = cid ∧ c = { c0 with x := mx, y := my }))
      ∧ (∀ c0 ∈ sketch, c0.id ≠ cid → c0 ∈ executeMove sketch op))
    ∧ (∀ (sketch : List PlacedComponent) (op : ComponentOperation) (cid : String)
        (w h : ℚ),
      op.componentId = some cid → cid ≠ "" → op.width = some w → op.height = some h →
      (executeResize sketch op).length = sketch.length
      ∧ (∀ c ∈ executeResize sketch op,
          (c.id ≠ cid → c ∈ sketch)
          ∧ (c.id = cid → ∃ c0 ∈ sketch, c0.id = cid
              ∧ c = { c0 with
                      width := max 20 w,
                      height := if c0.type = "HorizontalLine" then max 2 h
                        else max 20 h }))
      ∧ (∀ c0 ∈ sketch, c0.id ≠ cid → c0 ∈ executeResize sketch op))
    ∧ (∀ (sketch : List PlacedComponent) (op : ComponentOperation) (cid : String)
        (ps : List (String × String)),
      op.componentId = some cid → cid ≠ "" → op.props = some ps →
      (executeModify sketch op).length = sketch.length
      ∧ (∀ c ∈ executeModify sketch op,
          (c.id ≠ cid → c ∈ sketch)
          ∧ (c.id = cid → ∃ c0 ∈ sketch, c0.id = cid
              ∧ c = { c0 with props := mergeProps c0.props ps }))
      ∧ (∀ c0 ∈ sketch, c0.id ≠ cid → c0 ∈ executeModify sketch op))
    ∧ (∀ (s : List PlacedComponent) (n : Nat) (op : ComponentOperation),
      List.Sublist ((executeOp gen (s, n) op).1.map (fun c => c.id))
        (s.map (fun c => c.id))
      ∨ (executeOp gen (s, n) op).1.map (fun c => c.id)
          = s.map (fun c => c.id) ++ [gen n]) := by
  refine ⟨?_, ?_, ?_, ?_⟩
  · intro sketch op cid mx my h1 h2 h3 h4
    have he : executeMove sketch op
        = sketch.map (fun comp =>
            if comp.id = cid then { comp with x := mx, y := my } else comp) := by
      unfold executeMove
      simp only [h1, h3, h4]
      rw [if_neg h2]
    rw [he]
    refine ⟨List.length_map _ _, ?_, ?_⟩
    · intro c hc
      obtain ⟨c0, hc0, rfl⟩ := List.mem_map.mp hc
      by_cases hcc : c0.id = cid
      · rw [if_pos hcc]
        exact ⟨fun hne => absurd hcc hne, fun _ => ⟨c0, hc0, hcc, rfl⟩⟩
      · rw [if_neg hcc]
        exact ⟨fun _ => hc0, fun heq => absurd heq hcc⟩
    · intro c0 hc0 hne
      have : (fun comp => if comp.id = cid then { comp with x := mx, y := my }
          else comp) c0 = c0 := if_neg hne
      rw [← this]
      exact List.mem_map_of_mem _ hc0
  · intro sketch op cid w h h1 h2 h3 h4
    have he : executeResize sketch op
        = sketch.map (fun comp =>
            if comp.id = cid then
              { comp with
                width := max 20 w,
                height := if comp.type = "HorizontalLine" then max 2 h else max 20 h }
            else comp) := by
      unfold executeResize
      simp only [h1, h3, h4]
      rw [if_neg h2]
    rw [he]
    refine ⟨List.length_map _ _, ?_, ?_⟩
    · intro c hc
      obtain ⟨c0, hc0, rfl⟩ := List.mem_map.mp hc
      by_cases hcc : c0.id = cid
      · rw [if_pos hcc]
        exact ⟨fun hne => absurd hcc hne, fun _ => ⟨c0, hc0, hcc, rfl⟩⟩
      · rw [if_neg hcc]
        exact ⟨fun _ => hc0, fun heq => absurd heq hcc⟩
    · intro c0 hc0 hne
      have : (fun comp => if comp.id = cid then
          { comp with
            width := max 20 w,
            height := if comp.type = "HorizontalLine" then max 2 h else max 20 h }
          else comp) c0 = c0 := if_neg hne
      rw [← this]
      exact List.mem_map_of_mem _ hc0
  · intro sketch op cid ps h1 h2 h3
    have he : executeModify sketch op
        = sketch.map (fun comp =>
            if comp.id = cid then { comp with props := mergeProps comp.props ps }
            else comp) := by
      unfold executeModify
      simp only [h1, h3]
      rw [if_neg h2]
    rw [he]
    refine ⟨List.length_map _ _, ?_, ?_⟩
    · intro c hc
      obtain ⟨c0, hc0, rfl⟩ := List.mem_map.mp hc
      by_cases hcc : c0.id = cid
      · rw [if_pos hcc]
        exact ⟨fun hne => absurd hcc hne, fun _ => ⟨c0, hc0, hcc, rfl⟩⟩
      · rw [if_neg hcc]
        exact ⟨fun _ => hc0, fun heq => absurd heq hcc⟩
    · intro c0 hc0 hne
      have : (fun comp => if comp.id = cid then
          { comp with props := mergeProps comp.props ps } else comp) c0 = c0 :=
        if_neg hne
      rw [← this]
      exact List.mem_map_of_mem _ hc0
  · intro s n op
    unfold executeOp
    split
    · rw [executeMove_ids]
      exact Or.inl (List.Sublist.refl _)
    · rw [executeResize_ids]
      exact Or.inl (List.Sublist.refl _)
    · unfold executeAdd
      split
      · split_ifs
        · exact Or.inl (List.Sublist.refl _)
        · refine Or.inr ?_
          simp
        · refine Or.inr ?_
          simp
      · exact Or.inl (List.Sublist.refl _)
    · exact Or.inl (executeDelete_ids_sublist s op)
    · rw [executeModify_ids]
      exact Or.inl (List.Sublist.refl _)
    · rw [executeAlign_ids]
      exact Or.inl (List.Sublist.refl _)
    · rw [executeDistribute_ids]
      exact Or.inl (List.Sublist.refl _)
    · exact Or.inl (List.Sublist.refl _)

/-- The move operation used by the C10 witness. -/
def c10Mop : ComponentOperation :=
  { type := "move", componentId := some "a", x := some 200, y := some 10 }

theorem c10_witness :
    ((executeMove [wInput] c10Mop).length = ([wInput] : List PlacedComponent).length
      ∧ (∀ c ∈ executeMove [wInput] c10Mop,
          (c.id ≠ "a" → c ∈ [wInput])
          ∧ (c.id = "a" → ∃ c0 ∈ [wInput], c0.id = "a"
              ∧ c = { c0 with x := 200, y := 10 }))
      ∧ (∀ c0 ∈ [wInput], c0.id ≠ "a" → c0 ∈ executeMove [wInput] c10Mop))
    ∧ (List.Sublist ((executeOp c3Gen ([wInput], 0) c10Mop).1.map (fun c => c.id))
        (([wInput] : List PlacedComponent).map (fun c => c.id))
      ∨ (executeOp c3Gen ([wInput], 0) c10Mop).1.map (fun c => c.id)
          = ([wInput] : List PlacedComponent).map (fun c => c.id) ++ [c3Gen 0]) :=
  ⟨(c10_frame_conditions c3Gen).1 [wInput] c10Mop "a" 200 10 rfl (by decide) rfl rfl,
    (c10_frame_conditions c3Gen).2.2.2 [wInput] 0 c10Mop⟩

/-! Claim C8. -/

/-- The consecutive-spacing property of a distributed member list: every
member's x equals the previous member's x plus the previous member's width
plus the spacing. -/
def distributeChain (s : ℚ) : List PlacedComponent → Prop
  | [] => True
  | [_] => True
  | c :: d :: rest => d.x = c.x + c.width + s ∧ distributeChain s (d :: rest)

theorem distributeScan_chain (s : ℚ) (comps : List PlacedComponent) :
    ∀ startX, distributeChain s (distributeScan startX s comps) := by
  induction comps with
  | nil => intro startX; exact trivial
  | cons c rest ih =>
    intro startX
    cases rest with
    | nil => exact trivial
    | cons d rest2 => exact ⟨rfl, ih (startX + c.width + s)⟩

/-- Inserting by ascending x produces a permutation of consing the
element on. -/
theorem insertByX_perm (c : PlacedComponent) (l : List PlacedComponent) :
    (insertByX c l).Perm (c :: l) := by
  induction l with
  | nil => exact List.Perm.refl _
  | cons d rest ih =>
    unfold insertByX
    split_ifs
    · exact List.Perm.refl _
    · exact (ih.cons d).trans (List.Perm.swap c d rest)

theorem sortByX_perm (l : List PlacedComponent) : (sortByX l).Perm l := by
  induction l with
  | nil => exact List.Perm.refl _
  | cons c rest ih =>
    exact (insertByX_perm c (sortByX rest)).trans (ih.cons c)

theorem insertByX_sorted (c : PlacedComponent) (l : List PlacedComponent)
    (h : List.Sorted (fun a b : PlacedComponent => a.x ≤ b.x) l) :
    List.Sorted (fun a b : PlacedComponent => a.x ≤ b.x) (insertByX c l) := by
  induction l with
  | nil => simp [insertByX]
  | cons d rest ih =>
    rw [List.sorted_cons] at h
    obtain ⟨hd, hrest⟩ := h
    unfold insertByX
    split_ifs with hcd
    · rw [List.sorted_cons]
      refine ⟨?_, List.sorted_cons.mpr ⟨hd, hrest⟩⟩
      intro b hb
      rcases List.mem_cons.mp hb with rfl | hb
      · exact hcd
      · exact le_trans hcd (hd b hb)
    · rw [List.sorted_cons]
      refine ⟨?_, ih hrest⟩
      intro b hb
      rcases List.mem_cons.mp ((insertByX_perm c rest).mem_iff.mp hb) with rfl | hb
      · exact le_of_lt (not_le.mp hcd)
      · exact hd b hb

theorem sortByX_sorted (l : List PlacedComponent) :
    List.Sorted (fun a b : PlacedComponent => a.x ≤ b.x) (sortByX l) := by
  induction l with
  | nil => simp [sortByX]
  | cons c rest ih => exact insertByX_sorted c (sortByX rest) ih

/-- The scan changes nothing but the x of each member, positionally. -/
theorem distributeScan_getElem? (s : ℚ) (l : List PlacedComponent) :
    ∀ (x : ℚ) (i : Nat),
      ((distributeScan x s l)[i]?).map
          (fun c => (c.id, c.type, c.y, c.width, c.height, c.props))
        = (l[i]?).map (fun c => (c.id, c.type, c.y, c.width, c.height, c.props)) := by
  induction l with
  | nil => intro x i; simp [distributeScan]
  | cons c rest ih =>
    intro x i
    cases i with
    | zero => simp [distributeScan]
    | succ n => simpa [distributeScan] using ih (x + c.width + s) n

/-- Every scanned member comes from a member of the input list with the
same id, y, width and height. -/
theorem distributeScan_mem (s : ℚ) (l : List PlacedComponent) :
    ∀ (x : ℚ) (u : PlacedComponent), u ∈ distributeScan x s l →
      ∃ c0 ∈ l, u.id = c0.id ∧ u.y = c0.y ∧ u.width = c0.width
        ∧ u.height = c0.height := by
  induction l with
  | nil => intro x u hu; simp [distributeScan] at hu
  | cons c rest ih =>
    intro x u hu
    rcases List.mem_cons.mp hu with rfl | hu
    · exact ⟨c, List.mem_cons_self _ _, rfl, rfl, rfl, rfl⟩
    · obtain ⟨c0, hc0, h⟩ := ih (x + c.width + s) u hu
      exact ⟨c0, List.mem_cons_of_mem _ hc0, h⟩

theorem distributeScan_ids (s : ℚ) (l : List PlacedComponent) :
    ∀ x : ℚ, (distributeScan x s l).map (fun c => c.id) = l.map (fun c => c.id) := by
  induction l with
  | nil => intro x; rfl
  | cons c rest ih => intro x; simp [distributeScan, ih (x + c.width + s)]

/-- The targetComponents local of executeDistribute (operationExecutor.ts:174):
the components of the sketch whose id is among the operation targetIds. -/
def targetComponents (sketch : List PlacedComponent) (targetIds : List String) :
    List PlacedComponent :=
  sketch.filter (fun comp => targetIds.contains comp.id)

/-- The sorted local of executeDistribute (operationExecutor.ts:180): the
targets sorted by ascending x. -/
def sortedTargets (sketch : List PlacedComponent) (targetIds : List String) :
    List PlacedComponent :=
  sortByX (targetComponents sketch targetIds)

/-- The updatedComponents local of executeDistribute
(operationExecutor.ts:184): the sorted targets repositioned by the
running-x scan starting at the first member's own x. -/
def updatedComponents (sketch : List PlacedComponent) (targetIds : List String)
    (spacing : ℚ) : List PlacedComponent :=
  distributeScan
    (match sortedTargets sketch targetIds with | [] => 0 | c :: _ => c.x)
    spacing (sortedTargets sketch targetIds)

/-- Past its guards, executeDistribute writes the updated members back into
the sketch by id. -/
theorem executeDistribute_eq (sketch : List PlacedComponent)
    (op : ComponentOperation) (ts : List String) (s : ℚ)
    (hts : op.targetIds = some ts) (hsp : op.spacing = some s)
    (hlen : ¬ ts.length < 2)
    (hpres : ¬ (targetComponents sketch ts).length < 2) :
    executeDistribute sketch op = sketch.map (fun comp =>
      match (updatedComponents sketch ts s).find? (fun uc => uc.id == comp.id) with
      | some updated => updated
      | none => comp) := by
  unfold executeDistribute
  simp only [hts, hsp]
  rw [if_neg hlen]
  unfold targetComponents at hpres
  rw [if_neg hpres]
  unfold updatedComponents sortedTargets targetComponents
  rfl

/-- C8: for a distribute with spacing s whose targetIds (at least 2) have
at least 2 members present in a sketch with unique component ids, the
executor sorts the present targets by ascending x (the sorted list is a
permutation of the targets and is sorted), keeps the first sorted member
unchanged, gives each subsequent member an x equal to the previous
member's x plus the previous member's width plus s, changes no member's
id, type, y, width, height or props, replaces exactly the targeted
components in the output while leaving every other component untouched,
and every output component keeps its y, width and height; in particular
when the sorted targets are [A, B] the output holds a component with B's
id at x = A.x + A.width + s. -/
theorem c8_distribute_spacing (sketch : List PlacedComponent)
    (op : ComponentOperation) (ts : List String) (s : ℚ)
    (hts : op.targetIds = some ts) (hsp : op.spacing = some s)
    (hlen : 2 ≤ ts.length)
    (hnodup : (sketch.map (fun c => c.id)).Nodup)
    (hpresent : 2 ≤ (targetComponents sketch ts).length) :
    ((sortedTargets sketch ts).Perm (targetComponents sketch ts)
      ∧ List.Sorted (fun a b : PlacedComponent => a.x ≤ b.x)
          (sortedTargets sketch ts))
    ∧ (updatedComponents sketch ts s).head? = (sortedTargets sketch ts).head?
    ∧ distributeChain s (updatedComponents sketch ts s)
    ∧ (∀ i : Nat,
        ((updatedComponents sketch ts s)[i]?).map
            (fun c => (c.id, c.type, c.y, c.width, c.height, c.props))
          = ((sortedTargets sketch ts)[i]?).map
            (fun c => (c.id, c.type, c.y, c.width, c.height, c.props)))
    ∧ (∀ c ∈ executeDistribute sketch op,
        (ts.contains c.id = true → c ∈ updatedComponents sketch ts s)
        ∧ (ts.contains c.id = false → c ∈ sketch))
    ∧ (∀ u ∈ updatedComponents sketch ts s, u ∈ executeDistribute sketch op)
    ∧ (∀ c ∈ executeDistribute sketch op, ∃ c0 ∈ sketch,
        c.id = c0.id ∧ c.y = c0.y ∧ c.width = c0.width ∧ c.height = c0.height)
    ∧ (∀ A B : PlacedComponent, sortedTargets sketch ts = [A, B] →
        ∃ u ∈ executeDistribute sketch op, u.id = B.id
          ∧ u.x = A.x + A.width + s ∧ u.y = B.y ∧ u.width = B.width
          ∧ u.height = B.height) := by
  have heq := executeDistribute_eq sketch op ts s hts hsp (not_lt.mpr hlen)
    (not_lt.mpr hpresent)
  have hperm : (sortedTargets sketch ts).Perm (targetComponents sketch ts) :=
    sortByX_perm _
  have hsorted : List.Sorted (fun a b : PlacedComponent => a.x ≤ b.x)
      (sortedTargets sketch ts) := sortByX_sorted _
  have hids_sub : List.Sublist
      ((targetComponents sketch ts).map (fun c => c.id))
      (sketch.map (fun c => c.id)) :=
    (List.filter_sublist sketch).map (fun c => c.id)
  have hnodup_t : ((targetComponents sketch ts).map (fun c => c.id)).Nodup :=
    List.Nodup.sublist hids_sub hnodup
  have hids_perm : ((sortedTargets sketch ts).map (fun c => c.id)).Perm
      ((targetComponents sketch ts).map (fun c => c.id)) := hperm.map _
  have hupd_ids : (updatedComponents sketch ts s).map (fun c => c.id)
      = (sortedTargets sketch ts).map (fun c => c.id) :=
    distributeScan_ids s _ _
  have hnodup_u : ((updatedComponents sketch ts s).map (fun c => c.id)).Nodup := by
    rw [hupd_ids]
    exact hids_perm.nodup_iff.mpr hnodup_t
  have hupd_src : ∀ u ∈ updatedComponents sketch ts s,
      ∃ c0 ∈ targetComponents sketch ts, u.id = c0.id ∧ u.y = c0.y
        ∧ u.width = c0.width ∧ u.height = c0.height := by
    intro u hu
    obtain ⟨c0, hc0, h⟩ := distributeScan_mem s _ _ u hu
    exact ⟨c0, hperm.subset hc0, h⟩
  have hupd_ts : ∀ u ∈ updatedComponents sketch ts s,
      ts.contains u.id = true := by
    intro u hu
    obtain ⟨c0, hc0, hid, _⟩ := hupd_src u hu
    rw [hid]
    exact (List.mem_filter.mp hc0).2
  have he_parts : ∀ c ∈ executeDistribute sketch op,
      (ts.contains c.id = true → c ∈ updatedComponents sketch ts s)
      ∧ (ts.contains c.id = false → c ∈ sketch) := by
    intro c hc
    rw [heq] at hc
    obtain ⟨comp, hcomp, rfl⟩ := List.mem_map.mp hc
    cases hfind : (updatedComponents sketch ts s).find?
        (fun uc => uc.id == comp.id) with
    | some u =>
      have hmem := List.mem_of_find?_eq_some hfind
      refine ⟨fun _ => hmem, fun hfalse => ?_⟩
      exact absurd ((Eq.symm hfalse).trans (hupd_ts u hmem)) Bool.false_ne_true
    | none =>
      refine ⟨fun htrue => ?_, fun _ => hcomp⟩
      exfalso
      have hcompt : comp ∈ targetComponents sketch ts :=
        List.mem_filter.mpr ⟨hcomp, htrue⟩
      have h1 : comp.id ∈ (targetComponents sketch ts).map (fun c => c.id) :=
        List.mem_map_of_mem _ hcompt
      have h2 : comp.id ∈ (updatedComponents sketch ts s).map (fun c => c.id) := by
        rw [hupd_ids]
        exact hids_perm.mem_iff.mpr h1
      obtain ⟨u, hu, huid⟩ := List.mem_map.mp h2
      exact (List.find?_eq_none.mp hfind u hu) (by simp [huid])
  have he2 : ∀ u ∈ updatedComponents sketch ts s,
      u ∈ executeDistribute sketch op := by
    intro u hu
    obtain ⟨c0, hc0t, hc0id, _⟩ := hupd_src u hu
    have hc0sk : c0 ∈ sketch := (List.mem_filter.mp hc0t).1
    rw [heq]
    cases hfind : (updatedComponents sketch ts s).find?
        (fun uc => uc.id == c0.id) with
    | none =>
      exact absurd (by simp [hc0id] : ((fun uc => uc.id == c0.id) u) = true)
        (List.find?_eq_none.mp hfind u hu)
    | some v =>
      have hvmem := List.mem_of_find?_eq_some hfind
      have hvid : v.id = c0.id := by simpa using List.find?_some hfind
      have hvu : v = u :=
        List.inj_on_of_nodup_map hnodup_u hvmem hu (by rw [hvid, hc0id])
      refine List.mem_map.mpr ⟨c0, hc0sk, ?_⟩
      show (match (updatedComponents sketch ts s).find?
          (fun (uc : PlacedComponent) => uc.id == c0.id) with
        | some updated => updated
        | none => c0) = u
      rw [hfind]
      exact hvu
  have hf : ∀ c ∈ executeDistribute sketch op, ∃ c0 ∈ sketch,
      c.id = c0.id ∧ c.y = c0.y ∧ c.width = c0.width ∧ c.height = c0.height := by
    intro c hc
    rw [heq] at hc
    obtain ⟨comp, hcomp, rfl⟩ := List.mem_map.mp hc
    cases hfind : (updatedComponents sketch ts s).find?
        (fun uc => uc.id == comp.id) with
    | some u =>
      obtain ⟨c0, hc0t, h⟩ := hupd_src u (List.mem_of_find?_eq_some hfind)
      have hc0sk : c0 ∈ sketch := (List.mem_filter.mp hc0t).1
      exact ⟨c0, hc0sk, h⟩
    | none =>
      exact ⟨comp, hcomp, rfl, rfl, rfl, rfl⟩
  have hb : (updatedComponents sketch ts s).head?
      = (sortedTargets sketch ts).head? := by
    unfold updatedComponents
    cases hs : sortedTargets sketch ts with
    | nil => rfl
    | cons c rest => rfl
  have hg : ∀ A B : PlacedComponent, sortedTargets sketch ts = [A, B] →
      ∃ u ∈ executeDistribute sketch op, u.id = B.id
        ∧ u.x = A.x + A.width + s ∧ u.y = B.y ∧ u.width = B.width
        ∧ u.height = B.height := by
    intro A B hAB
    have hupd : updatedComponents sketch ts s
        = [A, { B with x := A.x + A.width + s }] := by
      unfold updatedComponents
      rw [hAB]
      simp [distributeScan]
    refine ⟨{ B with x := A.x + A.width + s }, ?_, rfl, rfl, rfl, rfl, rfl⟩
    apply he2
    rw [hupd]
    simp
  exact ⟨⟨hperm, hsorted⟩, hb, distributeScan_chain s _ _,
    fun i => distributeScan_getElem? s _ _ i, he_parts, he2, hf, hg⟩

/-- Components of the C8 witness. -/
def c8A : PlacedComponent :=
  { id := "a", type := "Button", x := 0, y := 0, width := 100, height := 50,
    props := [] }

/-- Second component of the C8 witness. -/
def c8B : PlacedComponent :=
  { id := "b", type := "Button", x := 200, y := 0, width := 100, height := 50,
    props := [] }

/-- The distribute operation of the C8 witness. -/
def c8Dop : ComponentOperation :=
  { type := "distribute", targetIds := some ["a", "b"], spacing := some 10 }

theorem c8_witness :
    ∃ u ∈ executeDistribute [c8A, c8B] c8Dop, u.id = c8B.id
      ∧ u.x = c8A.x + c8A.width + 10 ∧ u.y = c8B.y ∧ u.width = c8B.width
      ∧ u.height = c8B.height :=
  (c8_distribute_spacing [c8A, c8B] c8Dop ["a", "b"] 10 rfl rfl (by decide)
    (by decide) (by decide)).2.2.2.2.2.2.2 c8A c8B (by
      show sortByX (targetComponents [c8A, c8B] ["a", "b"]) = [c8A, c8B]
      rw [show targetComponents [c8A, c8B] ["a", "b"] = [c8A, c8B] from rfl]
      show insertByX c8A [c8B] = [c8A, c8B]
      unfold insertByX
      rw [if_pos (by norm_num [c8A, c8B])])

/-! Claims C5 and C6: pairwise relationships. -/

theorem isOverlapping_iff (c1 c2 : PlacedComponent) :
    isOverlapping c1 c2 = true ↔ aabbIntersect c1 c2 := by
  unfold isOverlapping aabbIntersect
  simp [not_or, not_lt]
  tauto

theorem pairRelationships_overlapping_case (c1 c2 : PlacedComponent)
    (h : isOverlapping c1 c2 = true) :
    pairRelationships c1 c2
      = [{ component1 := c1.id, component2 := c2.id,
           relationship := "overlapping" }] := by
  unfold pairRelationships
  rw [if_pos h]

theorem pairRelationships_no_overlap_tag (c1 c2 : PlacedComponent)
    (h : isOverlapping c1 c2 = false) :
    ∀ r ∈ pairRelationships c1 c2, r.relationship ≠ "overlapping" := by
  intro r hr
  unfold pairRelationships at hr
  rw [if_neg (by simp [h])] at hr
  simp only [List.mem_append] at hr
  rcases hr with (hr | hr) | hr <;> split_ifs at hr <;> simp at hr <;>
    subst hr <;> exact of_decide_eq_true rfl

/-- C5: for every unordered pair visited by the analyzer, an overlapping
relationship is emitted iff the closed bounding boxes intersect, an
intersecting pair gets no relationship of any other kind, and everything
emitted for the pair is part of the analyzer's relationship list. -/
theorem c5_overlapping_iff_suppresses (components : List PlacedComponent)
    (p : PlacedComponent × PlacedComponent) (hp : p ∈ orderedPairs components) :
    (((pairRelationships p.1 p.2).any
        (fun r => r.relationship == "overlapping")) = true
      ↔ aabbIntersect p.1 p.2)
    ∧ (aabbIntersect p.1 p.2 →
        ∀ r ∈ pairRelationships p.1 p.2, r.relationship = "overlapping")
    ∧ (∀ r ∈ pairRelationships p.1 p.2, r ∈ identifyRelationships components) := by
  refine ⟨⟨?_, ?_⟩, ?_, ?_⟩
  · intro hany
    by_contra hno
    have hov : isOverlapping p.1 p.2 = false := by
      cases hovb : isOverlapping p.1 p.2
      · rfl
      · exact absurd ((isOverlapping_iff _ _).mp hovb) hno
    obtain ⟨r, hr, htag⟩ := List.any_eq_true.mp hany
    exact pairRelationships_no_overlap_tag p.1 p.2 hov r hr (by simpa using htag)
  · intro hab
    rw [pairRelationships_overlapping_case _ _ ((isOverlapping_iff _ _).mpr hab)]
    exact of_decide_eq_true rfl
  · intro hab r hr
    rw [pairRelationships_overlapping_case _ _ ((isOverlapping_iff _ _).mpr hab)] at hr
    simp at hr
    rw [hr]
  · intro r hr
    exact List.mem_flatMap.mpr ⟨p, hp, hr⟩

theorem c5_witness :
    (((pairRelationships c8A c8B).any
        (fun r => r.relationship == "overlapping")) = true
      ↔ aabbIntersect c8A c8B)
    ∧ (aabbIntersect c8A c8B →
        ∀ r ∈ pairRelationships c8A c8B, r.relationship = "overlapping")
    ∧ (∀ r ∈ pairRelationships c8A c8B, r ∈ identifyRelationships [c8A, c8B]) :=
  c5_overlapping_iff_suppresses [c8A, c8B] (c8A, c8B) (by simp [orderedPairs])

/-- Components of the C6 counterexample: identical geometry, distinct ids,
so their x difference is 0 (within the 20px alignment threshold) while
their boxes overlap. -/
def c6P : PlacedComponent :=
  { id := "p", type := "Button", x := 0, y := 0, width := 100, height := 50,
    props := [] }

/-- Second component of the C6 counterexample. -/
def c6Q : PlacedComponent :=
  { id := "q", type := "Button", x := 0, y := 0, width := 100, height := 50,
    props := [] }

/-- C6 counterexample: a pair with |x1 - x2| < 20 whose boxes overlap gets
no aligned relationship — the overlapping branch suppresses the alignment
check, contradicting the claim that alignment is emitted regardless. -/
theorem c6_counterexample :
    |c6P.x - c6Q.x| < 20
    ∧ ((identifyRelationships [c6P, c6Q]).any
        (fun r => r.relationship == "aligned")) = false := by
  constructor
  · norm_num [c6P, c6Q]
  · have hov : isOverlapping c6P c6Q = true := by
      norm_num [isOverlapping, c6P, c6Q]
    rw [show identifyRelationships [c6P, c6Q] = pairRelationships c6P c6Q by
      simp [identifyRelationships, orderedPairs]]
    rw [pairRelationships_overlapping_case _ _ hov]
    decide

/-- C6 (amended): for a pair whose boxes do not overlap, an aligned
relationship is emitted iff |x1 - x2| < 20, in addition to whatever
above/below/left/right relation the pair gets. -/
theorem c6_aligned_iff_not_overlapping (c1 c2 : PlacedComponent)
    (h : isOverlapping c1 c2 = false) :
    ((pairRelationships c1 c2).any (fun r => r.relationship == "aligned")) = true
      ↔ |c1.x - c2.x| < 20 := by
  unfold pairRelationships
  rw [if_neg (by simp [h])]
  by_cases hd : |c1.x - c2.x| < 20
  · refine iff_of_true ?_ hd
    apply List.any_eq_true.mpr
    refine ⟨{ component1 := c1.id, component2 := c2.id, relationship := "aligned" },
      ?_, of_decide_eq_true rfl⟩
    simp only [List.mem_append]
    refine Or.inr ?_
    rw [if_pos hd]
    exact List.mem_cons_self _ _
  · refine iff_of_false ?_ hd
    intro hany
    obtain ⟨r, hr, htag⟩ := List.any_eq_true.mp hany
    simp only [List.mem_append] at hr
    rcases hr with (hr | hr) | hr
    · split_ifs at hr <;> simp at hr <;> subst hr <;>
        exact absurd htag (of_decide_eq_true rfl)
    · split_ifs at hr <;> simp at hr <;> subst hr <;>
        exact absurd htag (of_decide_eq_true rfl)
    · rw [if_neg hd] at hr
      simp at hr

/-- First component of the C6 witness: not overlapping c6S, x within 20px. -/
def c6R : PlacedComponent :=
  { id := "r", type := "Button", x := 0, y := 0, width := 30, height := 30,
    props := [] }

/-- Second component of the C6 witness. -/
def c6S : PlacedComponent :=
  { id := "s", type := "Button", x := 10, y := 100, width := 30, height := 30,
    props := [] }

theorem c6_witness :
    isOverlapping c6R c6S = false
    ∧ (((pairRelationships c6R c6S).any
        (fun r => r.relationship == "aligned")) = true ↔ |c6R.x - c6S.x| < 20) :=
  ⟨by norm_num [isOverlapping, c6R, c6S],
    c6_aligned_iff_not_overlapping c6R c6S
      (by norm_num [isOverlapping, c6R, c6S])⟩

/-! Claim C7: position bucketing of the per-component descriptor. -/

/-- The bucketing the C7 claim describes, following the spec's words:
bounding-box-relative x and y compared against the 33 and 66 percent
thresholds of the bounding-box width and height. -/
def relativePosition (component : PlacedComponent) (bounds : Bounds) : String :=
  let canvasWidth := bounds.maxX - bounds.minX
  let canvasHeight := bounds.maxY - bounds.minY
  (if component.x - bounds.minX < canvasWidth * (33 / 100) then "left side"
   else if component.x - bounds.minX > canvasWidth * (66 / 100) then "right side"
   else "center")
  ++
  (if component.y - bounds.minY < canvasHeight * (33 / 100) then ", top section"
   else if component.y - bounds.minY > canvasHeight * (66 / 100) then ", bottom section"
   else ", middle section")

/-- The bucketing the code actually performs: the component's absolute x
and y compared against 33 and 66 percent of the bounding-box width and
height. -/
def absolutePosition (component : PlacedComponent) (bounds : Bounds) : String :=
  let canvasWidth := bounds.maxX - bounds.minX
  let canvasHeight := bounds.maxY - bounds.minY
  (if component.x < canvasWidth * (33 / 100) then "left side"
   else if component.x > canvasWidth * (66 / 100) then "right side"
   else "center")
  ++
  (if component.y < canvasHeight * (33 / 100) then ", top section"
   else if component.y > canvasHeight * (66 / 100) then ", bottom section"
   else ", middle section")

/-- A component away from the origin, for the C7 counterexample. -/
def c7A : PlacedComponent :=
  { id := "a", type := "Button", x := 100, y := 100, width := 20, height := 20,
    props := [] }

/-- Second component of the C7 counterexample. -/
def c7B : PlacedComponent :=
  { id := "b", type := "Button", x := 110, y := 110, width := 20, height := 20,
    props := [] }

/-- C7 counterexample: in the sketch [c7A, c7B] the bounding box starts at
(100, 100) with width and height 30, so c7A is relatively at its top-left
corner, yet the descriptor buckets it as right side, bottom section because
the code compares the absolute coordinates against the thresholds. -/
theorem c7_counterexample :
    (describeComponent c7A (calculateBounds [c7A, c7B])).position
      = "right side, bottom section"
    ∧ relativePosition c7A (calculateBounds [c7A, c7B]) = "left side, top section"
    ∧ (describeComponent c7A (calculateBounds [c7A, c7B])).position
        ≠ relativePosition c7A (calculateBounds [c7A, c7B]) := by
  have h1 : (describeComponent c7A (calculateBounds [c7A, c7B])).position
      = "right side, bottom section" := by
    norm_num [describeComponent, calculateBounds, boundsStep, c7A, c7B]
    rfl
  have h2 : relativePosition c7A (calculateBounds [c7A, c7B])
      = "left side, top section" := by
    norm_num [relativePosition, calculateBounds, boundsStep, c7A, c7B]
    rfl
  refine ⟨h1, h2, ?_⟩
  rw [h1, h2]
  decide

/-- C7 (amended): for every non-empty sketch and component in it, the
descriptor's 3 by 3 position bucket compares the component's absolute x and
y against the 33 and 66 percent thresholds of the bounding-box width and
height. -/
theorem c7_position_bucketing (components : List PlacedComponent)
    (hne : components ≠ []) (c : PlacedComponent) (hc : c ∈ components) :
    (describeComponent c (calculateBounds components)).position
      = absolutePosition c (calculateBounds components) := rfl

theorem c7_witness :
    ([c7A, c7B] : List PlacedComponent) ≠ []
    ∧ (describeComponent c7A (calculateBounds [c7A, c7B])).position
        = absolutePosition c7A (calculateBounds [c7A, c7B]) :=
  ⟨by simp, c7_position_bucketing [c7A, c7B] (by simp) c7A (by simp)⟩

/-! Claims C1 and C2: the validation pipeline and the executor node
post-condition, modelled from the spec (their code is the sketchagent
service, not under src/). -/

/-- C1: if any operation of the batch is invalid against the pre-batch
sketch (nonexistent componentId, missing required numeric field, and so
on), the pipeline leaves the sketch completely unchanged — no operation,
valid or invalid, is applied — and terminates in the error state with a
message of the form "Validation failed: ...". -/
theorem c1_invalid_batch_all_or_nothing (gen : Nat → String)
    (sketch : List PlacedComponent) (operations : List ComponentOperation)
    (h : ∃ op ∈ operations, validOp sketch op = false) :
    (runValidatedPipeline gen sketch operations).sketch = sketch
    ∧ (runValidatedPipeline gen sketch operations).step = "error"
    ∧ ∃ details, (runValidatedPipeline gen sketch operations).error
        = "Validation failed: " ++ details := by
  obtain ⟨op, hmem, hbad⟩ := h
  have hne : operations.isEmpty = false := by
    cases operations
    · simp at hmem
    · rfl
  have hfail : ((operations.filter (fun o => !validOp sketch o)).length) ≠ 0 := by
    have hin : op ∈ operations.filter (fun o => !validOp sketch o) :=
      List.mem_filter.mpr ⟨hmem, by simp [hbad]⟩
    intro hlen
    rw [List.length_eq_zero] at hlen
    rw [hlen] at hin
    simp at hin
  have hrun : runValidatedPipeline gen sketch operations
      = { step := "error",
          error := "Validation failed: "
            ++ (toString (operations.filter (fun o => !validOp sketch o)).length
              ++ " operation(s) failed validation"),
          sketch := sketch } := by
    unfold runValidatedPipeline validateBatch
    rw [if_neg (by simp [hne]), if_neg hfail]
  rw [hrun]
  exact ⟨rfl, rfl, _, rfl⟩

theorem c1_witness :
    (runValidatedPipeline c3Gen [wInput] [c9MoveNoXY]).sketch = [wInput]
    ∧ (runValidatedPipeline c3Gen [wInput] [c9MoveNoXY]).step = "error"
    ∧ ∃ details, (runValidatedPipeline c3Gen [wInput] [c9MoveNoXY]).error
        = "Validation failed: " ++ details :=
  c1_invalid_batch_all_or_nothing c3Gen [wInput] [c9MoveNoXY]
    ⟨c9MoveNoXY, by simp, rfl⟩

/-- C2: if after applying the full batch some remaining component violates
the size floors, or the batch contained an operation of unrecognized kind,
the executor node fails with an ExecutionError instead of returning a
sketch. -/
theorem c2_execution_error (gen : Nat → String) (sketch : List PlacedComponent)
    (operations : List ComponentOperation)
    (h : (∃ op ∈ operations, knownOpKind op.type = false)
      ∨ ∃ c ∈ executeOperations gen sketch operations, componentOk c = false) :
    ∃ msg, executeNode gen sketch operations = Except.error msg := by
  unfold executeNode
  by_cases hu : operations.any (fun op => !knownOpKind op.type) = true
  · rw [if_pos hu]
    exact ⟨_, rfl⟩
  · rw [if_neg hu]
    rcases h with ⟨op, hmem, hop⟩ | ⟨c, hmem, hc⟩
    · exact absurd (List.any_eq_true.mpr ⟨op, hmem, by simp [hop]⟩) hu
    · have hall : ¬ ((executeOperations gen sketch operations).all componentOk
          = true) := by
        intro hall
        have := List.all_eq_true.mp hall c hmem
        rw [hc] at this
        simp at this
      rw [if_neg hall]
      exact ⟨_, rfl⟩

/-- An operation of unrecognized kind, for the C2 witness. -/
def c2Rot : ComponentOperation := { type := "rotate" }

theorem c2_witness :
    ∃ msg, executeNode c3Gen [] [c2Rot] = Except.error msg :=
  c2_execution_error c3Gen [] [c2Rot] (Or.inl ⟨c2Rot, by simp, rfl⟩)

end WebSketch
